import Mathlib

/-!
Verification development for the free-agent-tracker dashboard
(`app.py` and `fa_tracker.py`).

The repository is a Streamlit application over pandas dataframes.  The
embedding below models, from the source:

* pandas scalar values (`PyVal`): strings, finite floats (as `Rat`), and NaN;
* dataframes (`Table`): a list of named, dtype-tagged columns;
* the in-memory dataset produced by `load_data` (`Dataset`), as a function
  from (player category, two-digit year, data kind) to tables;
* `convert_currency_columns`, including its in-place mutation of the input
  dataframe (`df[col] = ...`), modelled as state passing: `convertRun`
  returns the final state of the table object together with an optional
  error (pandas raises on `astype(float)` of an unparsable string, leaving
  the columns already processed mutated and the rest untouched);
* each page of both entry points as a function from the dataset and the
  user-selected widget values to the updated dataset and either the list of
  rendered items or the propagated Python exception.

Modelling notes, disclosed once here:
* Python `float(s)` is modelled on optionally signed decimal literals
  (digits with at most one decimal point, surrounding whitespace ignored,
  `"nan"` accepted); exponent/infinity forms are out of scope for the data
  in this repository.
* `DataFrame.sort_values(by, ascending=False)` is modelled after pandas
  `nargsort`: the non-NaN values and their indices are reversed, argsorted
  ascending, and the resulting indexer is reversed again, with NaN indices
  appended.  The underlying numpy argsort is modelled as a stable ascending
  sort (exact for the default kind on arrays of fewer than 16 elements,
  which covers every concrete instance below; numpy does not guarantee
  stability of the default kind on larger arrays).
* Sorting is modelled for numeric keys; non-float cells are treated like
  NaN (placed last).  The views sort statistic columns, which are numeric.
* Rendered markdown/title/warning strings are transcribed from the source;
  sidebar widgets, which are identical in both entry points and touched by
  no claim, are omitted.
-/

namespace FAT

/-- A pandas cell value: a Python string, a finite float (modelled as a
rational), or NaN. -/
inductive PyVal where
  | str : String → PyVal
  | float : Rat → PyVal
  | nan : PyVal
  deriving DecidableEq

/-- The two dtypes that `convert_currency_columns` distinguishes:
`df[col].dtype == "object"` versus the numeric dtype produced by
`astype(float)`. -/
inductive Dtype where
  | object
  | float64
  deriving DecidableEq

/-- One dataframe column: its label, dtype and cell values. -/
structure Column where
  name : String
  dtype : Dtype
  values : List PyVal
  deriving DecidableEq

/-- A dataframe: a list of columns. -/
structure Table where
  cols : List Column
  deriving DecidableEq

/-- Python exceptions that the scripts can raise. -/
inductive PyError where
  | parseError : String → PyError
  | fileNotFound : String → PyError
  | malformedFile : String → PyError
  | keyError : String → PyError
  | valueError : PyError
  deriving DecidableEq

def emptyTable : Table := ⟨[]⟩

instance exceptDecEq {ε α : Type} [DecidableEq ε] [DecidableEq α] :
    DecidableEq (Except ε α) := fun x y =>
  match x, y with
  | .ok a, .ok b =>
    if h : a = b then .isTrue (by rw [h]) else .isFalse (fun hh => h (Except.ok.inj hh))
  | .error a, .error b =>
    if h : a = b then .isTrue (by rw [h]) else .isFalse (fun hh => h (Except.error.inj hh))
  | .ok _, .error _ => .isFalse (fun hh => Except.noConfusion hh)
  | .error _, .ok _ => .isFalse (fun hh => Except.noConfusion hh)

/-- Strip surrounding whitespace from a character list (the core
`String.trim` is defined through substring primitives that the kernel
cannot reduce, so the model works on character lists). -/
def trimChars (cs : List Char) : List Char :=
  ((cs.dropWhile Char.isWhitespace).reverse.dropWhile Char.isWhitespace).reverse

def strTrim (s : String) : String := String.mk (trimChars s.data)

/-- Split a character list at every occurrence of the separator. -/
def splitOnChar (sep : Char) : List Char → List (List Char)
  | [] => [[]]
  | c :: cs =>
    if c == sep then [] :: splitOnChar sep cs
    else
      match splitOnChar sep cs with
      | [] => [[c]]
      | g :: gs => (c :: g) :: gs

/-- Numeric value of a list of decimal digit characters. -/
def digitsToNat (cs : List Char) : Nat :=
  cs.foldl (fun a c => a * 10 + (c.toNat - 48)) 0

/-- Assemble a rational from sign, integer part, fractional digits and the
number of fractional digits. -/
def ratOfParts (neg : Bool) (ip fp fl : Nat) : Rat :=
  let v := mkRat (Int.ofNat (ip * 10 ^ fl + fp)) (10 ^ fl)
  if neg then -v else v

/-- Model of Python `float(s)` on optionally signed decimal literals:
surrounding whitespace is ignored, an optional sign is followed by digits
with at most one decimal point and at least one digit. -/
def parseFloat (s : String) : Option Rat :=
  let core :=
    match trimChars s.data with
    | '-' :: r => (true, r)
    | '+' :: r => (false, r)
    | r => (false, r)
  match splitOnChar '.' core.2 with
  | [a] =>
    if 0 < a.length && a.all Char.isDigit then
      some (ratOfParts core.1 (digitsToNat a) 0 0)
    else none
  | [a, b] =>
    if 0 < a.length + b.length && a.all Char.isDigit && b.all Char.isDigit then
      some (ratOfParts core.1 (digitsToNat a) (digitsToNat b) b.length)
    else none
  | _ => none

/-- `df[col].replace('[\\$,]', '', regex=True)` on one cell: regex
replacement applies to string cells (every dollar sign and comma is
removed) and leaves non-string cells unchanged. -/
def replaceCurrencyCell : PyVal → PyVal
  | .str s => .str (String.mk (s.data.filter (fun c => !(c == '$' || c == ','))))
  | v => v

/-- `.astype(float)` on one cell: floats and NaN pass through, strings are
parsed with Python `float` (with `"nan"` accepted); `none` is the raised
`ValueError`. -/
def astypeFloatCell : PyVal → Option PyVal
  | .str s =>
    if trimChars s.data = ['n', 'a', 'n'] then some PyVal.nan
    else (parseFloat s).map PyVal.float
  | .float x => some (.float x)
  | .nan => some .nan

/-- `.astype(float)` over a column's values: all-or-nothing, as pandas
raises before assigning anything if any cell fails. -/
def astypeFloatList : List PyVal → Option (List PyVal)
  | [] => some []
  | v :: vs =>
    match astypeFloatCell v with
    | none => none
    | some w =>
      match astypeFloatList vs with
      | none => none
      | some ws => some (w :: ws)

/-- Does a cell hold a string starting with a dollar sign
(`df[col].str.startswith("$")`, with non-strings giving NaN, which
`.any()` skips)? -/
def cellStartsDollar : PyVal → Bool
  | .str s =>
    match s.data with
    | '$' :: _ => true
    | _ => false
  | _ => false

/-- The column test in `convert_currency_columns`: dtype `object` and at
least one cell starting with `"$"`. -/
def colQualifies (c : Column) : Bool :=
  match c.dtype with
  | .object => c.values.any cellStartsDollar
  | .float64 => false

/-- `df[col].replace('[\\$,]', '', regex=True).astype(float)` for a whole
column; `none` is the raised `ValueError`. -/
def convertColumn (c : Column) : Option Column :=
  (astypeFloatList (c.values.map replaceCurrencyCell)).map
    (fun vs => { name := c.name, dtype := Dtype.float64, values := vs })

/-- The loop of `convert_currency_columns` over the columns: each
qualifying column is rewritten in place; on the first failing column the
exception aborts the loop, leaving that column and the later ones
untouched. Returns the final state of the column list and the error, if
any. -/
def convertCols : List Column → List Column × Option PyError
  | [] => ([], none)
  | c :: cs =>
    if colQualifies c then
      match convertColumn c with
      | some c2 =>
        let r := convertCols cs
        (c2 :: r.1, r.2)
      | none => (c :: cs, some (PyError.parseError c.name))
    else
      let r := convertCols cs
      (c :: r.1, r.2)

/-- `convert_currency_columns(df)` as a state transformer: the final state
of the dataframe object passed in, plus the exception if one was raised. -/
def convertRun (t : Table) : Table × Option PyError :=
  let r := convertCols t.cols
  (⟨r.1⟩, r.2)

/-- `convert_currency_columns(df)` as a fallible function: its return value
on success, the raised exception otherwise. On success the returned object
is the same (now mutated) object that was passed in. -/
def convert_currency_columns (t : Table) : Except PyError Table :=
  match convertRun t with
  | (t2, none) => .ok t2
  | (_, some e) => .error e

/-- What the loop body does to a single column when no exception interrupts
the loop. -/
def stepCol (c : Column) : Column :=
  if colQualifies c then (convertColumn c).getD c else c

/-! ### Dataset and loader -/

/-- `data["hitters"]` / `data["pitchers"]`. -/
inductive PlayerCategory where
  | hitters
  | pitchers
  deriving DecidableEq

/-- The per-year entries of the nested dictionary built by `load_data`. -/
inductive DataKind where
  | performance
  | contract
  | pitches
  deriving DecidableEq

/-- The in-memory corpus `data`, keyed like the nested dictionary:
category, two-digit year, kind.  Keys never built by `load_data` are mapped
to the empty table (the views only index the 22–25 entries). -/
def Dataset : Type := PlayerCategory → Nat → DataKind → Table

/-- Write back through an alias: the table object stored at one key is
replaced (the Python views mutate the stored dataframe in place). -/
def updateDS (d : Dataset) (cat : PlayerCategory) (y : Nat) (k : DataKind)
    (t : Table) : Dataset :=
  fun c2 y2 k2 => if c2 = cat ∧ y2 = y ∧ k2 = k then t else d c2 y2 k2

/-- What the filesystem holds for one CSV path. -/
inductive ReadResult where
  | missing
  | malformed
  | table : Table → ReadResult

/-- The external flat files, by name. -/
def FileSystem : Type := String → ReadResult

/-- `.drop(columns=["playerid"], errors="ignore")`. -/
def dropPlayerid (t : Table) : Table :=
  ⟨t.cols.filter (fun c => !(c.name == "playerid"))⟩

/-- `pd.read_csv(f)` followed by the `playerid` drop: a missing file raises
`FileNotFoundError`, a malformed file raises a parser error. -/
def readCsv (fs : FileSystem) (f : String) : Except PyError Table :=
  match fs f with
  | .missing => .error (PyError.fileNotFound f)
  | .malformed => .error (PyError.malformedFile f)
  | .table t => .ok (dropPlayerid t)

/-- `load_data()`: reads the twenty CSV files for years 22–25 in program
order and builds the nested mapping; the first raised exception
propagates. -/
def load_data (fs : FileSystem) : Except PyError Dataset := do
  let h22p ← readCsv fs "hitters_22.csv"
  let h22c ← readCsv fs "hitters_22_contract.csv"
  let p22p ← readCsv fs "pitchers_22.csv"
  let p22c ← readCsv fs "pitchers_22_contract.csv"
  let p22x ← readCsv fs "pitchers_22_pitches.csv"
  let h23p ← readCsv fs "hitters_23.csv"
  let h23c ← readCsv fs "hitters_23_contract.csv"
  let p23p ← readCsv fs "pitchers_23.csv"
  let p23c ← readCsv fs "pitchers_23_contract.csv"
  let p23x ← readCsv fs "pitchers_23_pitches.csv"
  let h24p ← readCsv fs "hitters_24.csv"
  let h24c ← readCsv fs "hitters_24_contract.csv"
  let p24p ← readCsv fs "pitchers_24.csv"
  let p24c ← readCsv fs "pitchers_24_contract.csv"
  let p24x ← readCsv fs "pitchers_24_pitches.csv"
  let h25p ← readCsv fs "hitters_25.csv"
  let h25c ← readCsv fs "hitters_25_contract.csv"
  let p25p ← readCsv fs "pitchers_25.csv"
  let p25c ← readCsv fs "pitchers_25_contract.csv"
  let p25x ← readCsv fs "pitchers_25_pitches.csv"
  pure (fun cat y k =>
    match cat, y, k with
    | .hitters, 22, .performance => h22p
    | .hitters, 22, .contract => h22c
    | .pitchers, 22, .performance => p22p
    | .pitchers, 22, .contract => p22c
    | .pitchers, 22, .pitches => p22x
    | .hitters, 23, .performance => h23p
    | .hitters, 23, .contract => h23c
    | .pitchers, 23, .performance => p23p
    | .pitchers, 23, .contract => p23c
    | .pitchers, 23, .pitches => p23x
    | .hitters, 24, .performance => h24p
    | .hitters, 24, .contract => h24c
    | .pitchers, 24, .performance => p24p
    | .pitchers, 24, .contract => p24c
    | .pitchers, 24, .pitches => p24x
    | .hitters, 25, .performance => h25p
    | .hitters, 25, .contract => h25c
    | .pitchers, 25, .performance => p25p
    | .pitchers, 25, .contract => p25c
    | .pitchers, 25, .pitches => p25x
    | _, _, _ => emptyTable)

/-! ### Generic dataframe operations used by the views -/

/-- Number of rows of a dataframe (length of its first column). -/
def nRows (t : Table) : Nat :=
  match t.cols with
  | [] => 0
  | c :: _ => c.values.length

/-- `df.empty`: no rows or no columns. -/
def tableEmpty (t : Table) : Bool :=
  t.cols.isEmpty || nRows t == 0

/-- `df[n]` as an optional column (a missing label raises `KeyError`). -/
def getColOpt (t : Table) (n : String) : Option Column :=
  t.cols.find? (fun c => c.name == n)

/-- The values of column `n`, or `[]` when the column is absent. -/
def colValuesD (t : Table) (n : String) : List PyVal :=
  match getColOpt t n with
  | some c => c.values
  | none => []

/-- Column labels of a dataframe. -/
def colNames (t : Table) : List String := t.cols.map (·.name)

/-- First-occurrence-order union, as pandas aligns column labels in
`pd.concat`. -/
def dedupKeep : List String → List String
  | [] => []
  | n :: ns => n :: (dedupKeep ns).filter (fun m => !(m == n))

/-- The dtype `pd.concat` gives a column: numeric only when every input
table has it with a numeric dtype, else object. -/
def concatDtype (ts : List Table) (n : String) : Dtype :=
  if ts.all (fun t =>
      match getColOpt t n with
      | some c => match c.dtype with | .float64 => true | .object => false
      | none => false)
  then .float64 else .object

/-- The values one input table contributes to concatenated column `n`: its
own values, or NaN for each of its rows when it lacks the column. -/
def concatContrib (t : Table) (n : String) : List PyVal :=
  match getColOpt t n with
  | some c => c.values
  | none => List.replicate (nRows t) PyVal.nan

/-- `pd.concat(dfs)`: row concatenation with label alignment; raises
`ValueError` on an empty list of objects. -/
def concatTables (ts : List Table) : Except PyError Table :=
  match ts with
  | [] => .error PyError.valueError
  | _ =>
    .ok ⟨(dedupKeep ((ts.map colNames).flatten)).map
      (fun n => { name := n, dtype := concatDtype ts n,
                  values := (ts.map (fun t => concatContrib t n)).flatten })⟩

/-- `df["Name"].isin(sel)` on one cell: string cells are compared with the
selected names, other cells give `False`. -/
def nameMatches (sel : List String) : PyVal → Bool
  | .str s => sel.contains s
  | _ => false

/-- Keep the values whose mask entry is true (boolean-mask row filter). -/
def maskFilter (mask : List Bool) (vs : List PyVal) : List PyVal :=
  ((mask.zip vs).filter (fun p => p.1)).map (fun p => p.2)

/-- The boolean mask `df["Name"].isin(sel)`. -/
def isinNameMask (t : Table) (sel : List String) : List Bool :=
  (colValuesD t "Name").map (nameMatches sel)

/-- `df[df["Name"].isin(sel)]`: keep the rows whose `Name` is selected. -/
def filterByName (t : Table) (sel : List String) : Table :=
  ⟨t.cols.map (fun c =>
    { name := c.name, dtype := c.dtype,
      values := maskFilter (isinNameMask t sel) c.values })⟩

/-- Row label used for a transposed column. -/
def pyValLabel : PyVal → String
  | .str s => s
  | .float _ => "float"
  | .nan => "nan"

/-- `df.set_index("Name").transpose()`: one column per row of `df`,
labelled by that row's `Name`, holding the row's non-`Name` values; the
original column labels become row labels, which the model drops since no
claim inspects them. -/
def setIndexTranspose (t : Table) : Table :=
  let names := colValuesD t "Name"
  let others := t.cols.filter (fun c => !(c.name == "Name"))
  ⟨(List.range names.length).map (fun i =>
    { name := pyValLabel (names.getD i PyVal.nan), dtype := Dtype.object,
      values := others.map (fun c => c.values.getD i PyVal.nan) })⟩

/-! ### Sorting (`sort_values(by=stat, ascending=False).head(10)`) -/

/-- Sort key of a cell: floats are comparable, anything else sorts like
NaN (kept out of the comparison and appended last). -/
def numKey : PyVal → Option Rat
  | .float x => some x
  | _ => none

/-- Comparison of index/key pairs by key only, as numpy argsort compares
values and a stable sort keeps the input order of ties. -/
def pairLe (a b : Nat × Rat) : Prop := a.2 ≤ b.2

instance : DecidableRel pairLe := fun a b => inferInstanceAs (Decidable (a.2 ≤ b.2))

instance : IsTotal (Nat × Rat) pairLe := ⟨fun a b => le_total a.2 b.2⟩

instance : IsTrans (Nat × Rat) pairLe := ⟨fun _ _ _ h1 h2 => le_trans h1 h2⟩

/-- The (index, key) pairs of the sortable (float) entries, in row order. -/
def numPairs (vs : List PyVal) : List (Nat × Rat) :=
  vs.enum.filterMap (fun p => (numKey p.2).map (fun x => (p.1, x)))

/-- The indices of the NaN-like entries, in row order. -/
def nanIdxs (vs : List PyVal) : List Nat :=
  (vs.enum.filter (fun p => (numKey p.2).isNone)).map (fun p => p.1)

/-- pandas `nargsort(values, ascending=False, na_position="last")`: the
non-NaN entries and their indices are reversed, argsorted ascending
(stably, see the header note), and the indexer is reversed again; NaN
indices are appended. -/
def argsortDesc (vs : List PyVal) : List Nat :=
  ((List.insertionSort pairLe (numPairs vs).reverse).reverse).map (fun p => p.1)
    ++ nanIdxs vs

/-- Build the dataframe made of the given row indices, in order. -/
def selectRows (t : Table) (idxs : List Nat) : Table :=
  ⟨t.cols.map (fun c =>
    { name := c.name, dtype := c.dtype,
      values := idxs.map (fun i => c.values.getD i PyVal.nan) })⟩

/-- `df.sort_values(by=stat, ascending=False).head(10)`. -/
def topLeadersTable (t : Table) (stat : String) : Table :=
  selectRows t ((argsortDesc (colValuesD t stat)).take 10)

/-! ### Views -/

/-- The `"Performance Data"` / `"Contract Data"` radio. -/
inductive Mode where
  | performanceData
  | contractData
  deriving DecidableEq

def dataKindOf (m : Mode) : DataKind :=
  match m with
  | .performanceData => .performance
  | .contractData => .contract

def modeLabel (m : Mode) : String :=
  match m with
  | .performanceData => "Performance Data"
  | .contractData => "Contract Data"

def catLabel (c : PlayerCategory) : String :=
  match c with
  | .hitters => "Hitters"
  | .pitchers => "Pitchers"

/-- One row of the per-pitcher `pitch_summary` dataframe; `none` is the
`None` that `dict.get(k, None)` yields for a missing field. -/
structure PitchRow where
  ptype : String
  usage : Rat
  velo : Option PyVal
  wval : Option PyVal
  stuff : Option PyVal
  deriving DecidableEq

/-- One rendered widget. -/
inductive RenderItem where
  | title : String → RenderItem
  | markdown : String → RenderItem
  | dataEditor : Table → RenderItem
  | warning : String → RenderItem
  | pieChart : List PitchRow → RenderItem
  deriving DecidableEq

/-- The user selections of the Search & Compare page. -/
structure SCParams where
  mode : Mode
  years : List Nat
  playerType : PlayerCategory
  sel : List String

/-- `", ".join(...)`. -/
def joinComma : List String → String
  | [] => ""
  | [s] => s
  | s :: rest => s ++ ", " ++ joinComma rest

def joinYears (ys : List Nat) : String :=
  joinComma (ys.map toString)

def scHeader (p : SCParams) : String :=
  "### " ++ catLabel p.playerType ++ " " ++ modeLabel p.mode ++ " for " ++ joinYears p.years

def cmpHeader (p : SCParams) : String :=
  "### " ++ catLabel p.playerType ++ " Comparison for " ++ joinYears p.years

/-- The per-year loop shared by the Search & Compare data paths:
`df = data[cat][int(str(year)[-2:])][kind]; df = convert_currency_columns(df)`.
Each conversion mutates the stored table; a raised exception stops the
loop with the partial mutation in place. -/
def scLoop (cat : PlayerCategory) (k : DataKind) :
    Dataset → List Nat → Dataset × List Table × Option PyError
  | d, [] => (d, [], none)
  | d, y :: ys =>
    let t := d cat (y % 100) k
    let r := convertRun t
    let d2 := updateDS d cat (y % 100) k r.1
    match r.2 with
    | some e => (d2, [], some e)
    | none =>
      match scLoop cat k d2 ys with
      | (d3, ts, e2) => (d3, r.1 :: ts, e2)

/-- The comparison block of `app.py` (lines 92–97): fewer than two selected
players yields the validation warning; otherwise the filtered, transposed
comparison table is rendered. -/
def compareItems (combined : Table) (p : SCParams) : List RenderItem :=
  if p.sel.length < 2 then
    [RenderItem.warning "Please select at least 2 players for comparison."]
  else
    [RenderItem.markdown (cmpHeader p),
     RenderItem.dataEditor (setIndexTranspose (filterByName combined p.sel))]

/-- The Search & Compare page of `app.py` (lines 65–114). -/
def renderSC_app (d : Dataset) (p : SCParams) :
    Dataset × Except PyError (List RenderItem) :=
  match scLoop p.playerType (dataKindOf p.mode) d p.years with
  | (d1, _, some e) => (d1, .error e)
  | (d1, ts, none) =>
    match concatTables ts with
    | .error e => (d1, .error e)
    | .ok combined =>
      let hdr := [RenderItem.title "Search & Compare Free Agents",
                  RenderItem.markdown (scHeader p),
                  RenderItem.dataEditor combined]
      match getColOpt combined "Name" with
      | none => (d1, .error (PyError.keyError "Name"))
      | some _ =>
        let cmp := compareItems combined p
        match p.playerType with
        | .hitters => (d1, .ok (hdr ++ cmp))
        | .pitchers =>
          match scLoop PlayerCategory.pitchers DataKind.pitches d1 p.years with
          | (d2, _, some e) => (d2, .error e)
          | (d2, pts, none) =>
            match concatTables pts with
            | .error e => (d2, .error e)
            | .ok allPitch =>
              match getColOpt allPitch "Name" with
              | none => (d2, .error (PyError.keyError "Name"))
              | some _ =>
                let spd := filterByName allPitch p.sel
                let pitchItems :=
                  RenderItem.markdown "### Pitch Type Usage & Performance" ::
                  (if tableEmpty spd then
                    [RenderItem.warning "No pitch type data available for the selected players."]
                  else
                    [RenderItem.dataEditor spd])
                (d2, .ok (hdr ++ cmp ++ pitchItems))

/-- The 2025 Free Agents page of `app.py` (lines 118–134). -/
def render2025_app (d : Dataset) (m : Mode) :
    Dataset × Except PyError (List RenderItem) :=
  let k := dataKindOf m
  let th := d .hitters 25 k
  let tp := d .pitchers 25 k
  let rh := convertRun th
  let d1 := updateDS d .hitters 25 k rh.1
  match rh.2 with
  | some e => (d1, .error e)
  | none =>
    let rp := convertRun tp
    let d2 := updateDS d1 .pitchers 25 k rp.1
    match rp.2 with
    | some e => (d2, .error e)
    | none =>
      (d2, .ok [RenderItem.title "2025 Free Agents - 2024 Data",
                RenderItem.markdown "### Hitters",
                RenderItem.dataEditor rh.1,
                RenderItem.markdown "### Pitchers",
                RenderItem.dataEditor rp.1])

/-- The user selections of the Top Leaders page. -/
structure TLParams where
  year : Nat
  playerType : PlayerCategory
  dataMode : Mode
  stat : String

/-- The Top Leaders page of `app.py` (lines 138–164). -/
def renderTL_app (d : Dataset) (p : TLParams) :
    Dataset × Except PyError (List RenderItem) :=
  let k := dataKindOf p.dataMode
  let yy := p.year % 100
  let r := convertRun (d p.playerType yy k)
  let d1 := updateDS d p.playerType yy k r.1
  match r.2 with
  | some e => (d1, .error e)
  | none =>
    match getColOpt r.1 p.stat with
    | none => (d1, .error (PyError.keyError p.stat))
    | some _ =>
      let items := [RenderItem.title "Top Leaders by Free Agency Class",
                    RenderItem.dataEditor (topLeadersTable r.1 p.stat)]
      match p.playerType, p.dataMode with
      | .pitchers, .performanceData =>
        let rp := convertRun (d1 .pitchers yy .pitches)
        let d2 := updateDS d1 .pitchers yy .pitches rp.1
        match rp.2 with
        | some e => (d2, .error e)
        | none =>
          (d2, .ok (items ++ [RenderItem.markdown "### Pitch Type Usage & Performance",
                              RenderItem.dataEditor rp.1]))
      | _, _ => (d1, .ok items)

def homeMarkdown : String :=
  "Welcome to the MLB Free Agent Analysis Tool! Use this app to:\n" ++
  "- **Search & Compare free agents**: Filter by position, metrics, and performance stats, or compare specific players.\n" ++
  "- **Upcoming free agents**: View projections for the 2025 season.\n" ++
  "- **Top leaders**: Visualize the top players in various stats by free agency class.\n\n" ++
  "<br><br>  <!-- Adds extra spacing -->\n\n" ++
  "***Data is pulled from [FanGraphs.com](https://www.fangraphs.com) and covers free agents from 2022 - 2025.***"

/-- The Home page of `app.py` (lines 50–61). -/
def homeItems_app : List RenderItem :=
  [RenderItem.title "MLB Free Agent Analysis Tool",
   RenderItem.markdown homeMarkdown]

/-! ### The pitch-mix breakdown of `fa_tracker.py` -/

def pitchTypes : List String := ["4S", "CT", "2S", "CH", "SL", "CB", "SPLT", "KCB", "XX"]

/-- The four dict comprehensions of lines 127–130: for each pitch-type code
whose column (under the given naming pattern) exists in `pitcher_data`,
take the first row's value. -/
def extractOver (ps : List String) (pd : Table) (mk : String → String) :
    List (String × PyVal) :=
  ps.filterMap (fun p =>
    match getColOpt pd (mk p) with
    | some c => some (p, c.values.getD 0 PyVal.nan)
    | none => none)

def extractPitch (pd : Table) (mk : String → String) : List (String × PyVal) :=
  extractOver pitchTypes pd mk

/-- The usage filter of line 133:
`isinstance(v, str) and "%" in v and str(v).replace("%","").replace(".","").isdigit()`. -/
def usageAccepted : PyVal → Bool
  | .str s =>
    let r := s.data.filter (fun c => !(c == '%' || c == '.'))
    s.data.contains '%' && !r.isEmpty && r.all Char.isDigit
  | _ => false

/-- `str(v).replace("%", "")`. -/
def stripPercent (s : String) : String :=
  String.mk (s.data.filter (fun c => !(c == '%')))

/-- The dict comprehension of line 133: keep accepted values, convert them
with `float(str(v).replace("%","").strip())` (which can still raise, e.g.
on a string with several decimal points). -/
def parseUsage : List (String × PyVal) → Except PyError (List (String × Rat))
  | [] => .ok []
  | (p, v) :: rest =>
    if usageAccepted v then
      match v with
      | .str s =>
        match parseFloat (stripPercent s) with
        | some x =>
          match parseUsage rest with
          | .ok r => .ok ((p, x) :: r)
          | .error e => .error e
        | none => .error PyError.valueError
      | _ => parseUsage rest
    else parseUsage rest

/-- `dict.get(k, None)` over the extracted association lists. -/
def lookupA (l : List (String × PyVal)) (k : String) : Option PyVal :=
  (l.find? (fun kv => kv.1 == k)).map (fun kv => kv.2)

def noPitchDataMsg (name : String) : String :=
  "No pitch data available for " ++ name ++ "."

def noValidUsageMsg (name : String) : String :=
  "No valid pitch usage data available for " ++ name ++ "."

def pitcherHeader (name : String) : RenderItem :=
  RenderItem.markdown ("#### " ++ name ++ "\x27s Pitch Usage")

/-- One iteration of the per-pitcher loop of `fa_tracker.py`
(lines 118–167): header, the empty-data warning, the usage extraction and
filter, the no-valid-usage warning, or the `pitch_summary` pie chart. -/
def pitcherSection (spd : Table) (name : String) :
    Except PyError (List RenderItem) :=
  let hdr := pitcherHeader name
  let pd := filterByName spd [name]
  if tableEmpty pd then
    .ok [hdr, RenderItem.warning (noPitchDataMsg name)]
  else
    let usageRaw := extractPitch pd (fun p => p ++ "%")
    let velo := extractPitch pd (fun p => "v" ++ p)
    let wv := extractPitch pd (fun p => "w" ++ p)
    let stf := extractPitch pd (fun p => "Stf+ " ++ p)
    match parseUsage usageRaw with
    | .error e => .error e
    | .ok usage =>
      if usage.isEmpty then
        .ok [hdr, RenderItem.warning (noValidUsageMsg name)]
      else
        .ok [hdr, RenderItem.pieChart (usage.map (fun pu =>
          { ptype := pu.1, usage := pu.2, velo := lookupA velo pu.1,
            wval := lookupA wv pu.1, stuff := lookupA stf pu.1 }))]

/-- The `for pitcher in selected_players` loop. -/
def pitcherSections (spd : Table) : List String → Except PyError (List RenderItem)
  | [] => .ok []
  | n :: ns =>
    match pitcherSection spd n with
    | .error e => .error e
    | .ok items =>
      match pitcherSections spd ns with
      | .ok rest => .ok (items ++ rest)
      | .error e => .error e

/-- `pitch_df.columns = pitch_df.columns.str.strip()`: in-place column
label normalization. -/
def stripColNames (t : Table) : Table :=
  ⟨t.cols.map (fun c => { name := strTrim c.name, dtype := c.dtype, values := c.values })⟩

/-- The pitch-data loop of `fa_tracker.py` (lines 108–112): convert each
year's pitches table (mutating it), then strip its column labels (also
in place). -/
def faPitchLoop : Dataset → List Nat → Dataset × List Table × Option PyError
  | d, [] => (d, [], none)
  | d, y :: ys =>
    let r := convertRun (d .pitchers (y % 100) .pitches)
    match r.2 with
    | some e => (updateDS d .pitchers (y % 100) .pitches r.1, [], some e)
    | none =>
      let t2 := stripColNames r.1
      let d2 := updateDS d .pitchers (y % 100) .pitches t2
      match faPitchLoop d2 ys with
      | (d3, ts, e2) => (d3, t2 :: ts, e2)

/-- The Search & Compare page of `fa_tracker.py` (lines 66–169): same
combined table as `app.py`, no comparison block, and for pitchers the
per-player pitch-mix pie charts instead of the raw pitch table. -/
def renderSC_fa (d : Dataset) (p : SCParams) :
    Dataset × Except PyError (List RenderItem) :=
  match scLoop p.playerType (dataKindOf p.mode) d p.years with
  | (d1, _, some e) => (d1, .error e)
  | (d1, ts, none) =>
    match concatTables ts with
    | .error e => (d1, .error e)
    | .ok combined =>
      let hdr := [RenderItem.title "Search & Compare Free Agents",
                  RenderItem.markdown (scHeader p),
                  RenderItem.dataEditor combined]
      match getColOpt combined "Name" with
      | none => (d1, .error (PyError.keyError "Name"))
      | some _ =>
        match p.playerType with
        | .hitters => (d1, .ok hdr)
        | .pitchers =>
          let pitchHdr := RenderItem.markdown "### Pitch Type Usage & Performance"
          match faPitchLoop d1 p.years with
          | (d2, _, some e) => (d2, .error e)
          | (d2, pts, none) =>
            match concatTables pts with
            | .error e => (d2, .error e)
            | .ok allPitch =>
              match getColOpt allPitch "Name" with
              | none => (d2, .error (PyError.keyError "Name"))
              | some _ =>
                let spd := filterByName allPitch p.sel
                if tableEmpty spd then
                  (d2, .ok (hdr ++ [pitchHdr,
                    RenderItem.warning "No pitch type data available for the selected players."]))
                else
                  match pitcherSections spd p.sel with
                  | .error e => (d2, .error e)
                  | .ok secs => (d2, .ok (hdr ++ pitchHdr :: secs))

/-- The 2025 Free Agents page of `fa_tracker.py` (lines 174–190),
byte-identical to the one in `app.py`. -/
def render2025_fa (d : Dataset) (m : Mode) :
    Dataset × Except PyError (List RenderItem) :=
  let k := dataKindOf m
  let th := d .hitters 25 k
  let tp := d .pitchers 25 k
  let rh := convertRun th
  let d1 := updateDS d .hitters 25 k rh.1
  match rh.2 with
  | some e => (d1, .error e)
  | none =>
    let rp := convertRun tp
    let d2 := updateDS d1 .pitchers 25 k rp.1
    match rp.2 with
    | some e => (d2, .error e)
    | none =>
      (d2, .ok [RenderItem.title "2025 Free Agents - 2024 Data",
                RenderItem.markdown "### Hitters",
                RenderItem.dataEditor rh.1,
                RenderItem.markdown "### Pitchers",
                RenderItem.dataEditor rp.1])

/-- The Top Leaders page of `fa_tracker.py` (lines 194–220), byte-identical
to the one in `app.py`. -/
def renderTL_fa (d : Dataset) (p : TLParams) :
    Dataset × Except PyError (List RenderItem) :=
  let k := dataKindOf p.dataMode
  let yy := p.year % 100
  let r := convertRun (d p.playerType yy k)
  let d1 := updateDS d p.playerType yy k r.1
  match r.2 with
  | some e => (d1, .error e)
  | none =>
    match getColOpt r.1 p.stat with
    | none => (d1, .error (PyError.keyError p.stat))
    | some _ =>
      let items := [RenderItem.title "Top Leaders by Free Agency Class",
                    RenderItem.dataEditor (topLeadersTable r.1 p.stat)]
      match p.playerType, p.dataMode with
      | .pitchers, .performanceData =>
        let rp := convertRun (d1 .pitchers yy .pitches)
        let d2 := updateDS d1 .pitchers yy .pitches rp.1
        match rp.2 with
        | some e => (d2, .error e)
        | none =>
          (d2, .ok (items ++ [RenderItem.markdown "### Pitch Type Usage & Performance",
                              RenderItem.dataEditor rp.1]))
      | _, _ => (d1, .ok items)

/-- The Home page of `fa_tracker.py` (lines 50–61), byte-identical to the
one in `app.py`. -/
def homeItems_fa : List RenderItem :=
  [RenderItem.title "MLB Free Agent Analysis Tool",
   RenderItem.markdown homeMarkdown]

/-- The closed set of pages offered by the sidebar radio, with the widget
selections of the chosen page. -/
inductive Page where
  | home
  | searchCompare : SCParams → Page
  | fa2025 : Mode → Page
  | top : TLParams → Page

/-- One run of the `app.py` page dispatch (the `if page == ...` chain). -/
def appMain (d : Dataset) : Page → Dataset × Except PyError (List RenderItem)
  | .home => (d, .ok homeItems_app)
  | .searchCompare p => renderSC_app d p
  | .fa2025 m => render2025_app d m
  | .top p => renderTL_app d p

/-- One run of the `fa_tracker.py` page dispatch.  Its `if`/`elif` chain is
split after Home, but for each of the four page values exactly one block
runs, so the dispatch shape is the same. -/
def faMain (d : Dataset) : Page → Dataset × Except PyError (List RenderItem)
  | .home => (d, .ok homeItems_fa)
  | .searchCompare p => renderSC_fa d p
  | .fa2025 m => render2025_fa d m
  | .top p => renderTL_fa d p

/-- One full run of the `app.py` script: the module-level `load_data()`
call (whose exception propagates with nothing rendered), then the page
dispatch. -/
def appRun (fs : FileSystem) (pg : Page) :
    Except PyError (Dataset × List RenderItem) :=
  match load_data fs with
  | .error e => .error e
  | .ok d =>
    match appMain d pg with
    | (d2, .ok items) => .ok (d2, items)
    | (_, .error e) => .error e

/-- A cell that cannot survive `.astype(float)` after symbol stripping. -/
def badCell (v : PyVal) : Bool :=
  (astypeFloatCell (replaceCurrencyCell v)).isNone

/-- A cell holding a number (pandas float, NaN included). -/
def cellNumeric : PyVal → Bool
  | .str _ => false
  | .float _ => true
  | .nan => true

/-! ### Lemmas about `convert_currency_columns` -/

theorem astypeFloatCell_numeric {v w : PyVal} (h : astypeFloatCell v = some w) :
    cellNumeric w = true := by
  cases v with
  | str s =>
    by_cases hn : trimChars s.data = ['n', 'a', 'n']
    · simp only [astypeFloatCell, hn, if_pos] at h
      cases h
      rfl
    · simp only [astypeFloatCell, if_neg hn, Option.map_eq_some'] at h
      obtain ⟨x, _, rfl⟩ := h
      rfl
  | float x => cases h; rfl
  | nan => cases h; rfl

theorem astypeFloatList_eq_none_iff (l : List PyVal) :
    astypeFloatList l = none ↔ ∃ v ∈ l, astypeFloatCell v = none := by
  induction l with
  | nil => simp [astypeFloatList]
  | cons v vs ih =>
    simp only [astypeFloatList]
    cases hv : astypeFloatCell v with
    | none =>
      constructor
      · intro _
        exact ⟨v, List.mem_cons_self v vs, hv⟩
      · intro _
        rfl
    | some w =>
      cases hvs : astypeFloatList vs with
      | none =>
        constructor
        · intro _
          obtain ⟨u, hu, hb⟩ := ih.mp hvs
          exact ⟨u, List.mem_cons_of_mem v hu, hb⟩
        · intro _
          rfl
      | some ws =>
        constructor
        · intro h
          simp at h
        · rintro ⟨u, hu, hb⟩
          rcases List.mem_cons.mp hu with rfl | hu2
          · rw [hv] at hb
            cases hb
          · have h2 := ih.mpr ⟨u, hu2, hb⟩
            rw [hvs] at h2
            cases h2

theorem astypeFloatList_numeric :
    ∀ (l ws : List PyVal), astypeFloatList l = some ws → ws.all cellNumeric = true := by
  intro l
  induction l with
  | nil =>
    intro ws h
    cases h
    rfl
  | cons v vs ih =>
    intro ws h
    simp only [astypeFloatList] at h
    cases hv : astypeFloatCell v with
    | none =>
      rw [hv] at h
      cases h
    | some w =>
      rw [hv] at h
      cases hvs : astypeFloatList vs with
      | none =>
        rw [hvs] at h
        cases h
      | some us =>
        rw [hvs] at h
        cases h
        simp only [List.all_cons, Bool.and_eq_true]
        exact ⟨astypeFloatCell_numeric hv, ih us hvs⟩

theorem convertColumn_eq_none_iff (c : Column) :
    convertColumn c = none ↔ ∃ v ∈ c.values, badCell v = true := by
  unfold convertColumn
  constructor
  · intro h
    have h2 : astypeFloatList (c.values.map replaceCurrencyCell) = none := by
      cases ha : astypeFloatList (c.values.map replaceCurrencyCell) with
      | none => rfl
      | some ws =>
        rw [ha] at h
        cases h
    obtain ⟨v, hv, hb⟩ := (astypeFloatList_eq_none_iff _).mp h2
    obtain ⟨u, hu, rfl⟩ := List.mem_map.mp hv
    refine ⟨u, hu, ?_⟩
    unfold badCell
    rw [hb]
    rfl
  · rintro ⟨v, hv, hb⟩
    have hb2 : astypeFloatCell (replaceCurrencyCell v) = none := by
      have := hb
      unfold badCell at this
      exact Option.isNone_iff_eq_none.mp this
    have : astypeFloatList (c.values.map replaceCurrencyCell) = none :=
      (astypeFloatList_eq_none_iff _).mpr
        ⟨replaceCurrencyCell v, List.mem_map.mpr ⟨v, hv, rfl⟩, hb2⟩
    rw [this]
    rfl

theorem convertColumn_dtype {c c2 : Column} (h : convertColumn c = some c2) :
    c2.dtype = Dtype.float64 := by
  unfold convertColumn at h
  cases ha : astypeFloatList (c.values.map replaceCurrencyCell) with
  | none =>
    rw [ha] at h
    cases h
  | some ws =>
    rw [ha] at h
    cases h
    rfl

theorem convertColumn_name {c c2 : Column} (h : convertColumn c = some c2) :
    c2.name = c.name := by
  unfold convertColumn at h
  cases ha : astypeFloatList (c.values.map replaceCurrencyCell) with
  | none =>
    rw [ha] at h
    cases h
  | some ws =>
    rw [ha] at h
    cases h
    rfl

theorem convertColumn_values_numeric {c c2 : Column} (h : convertColumn c = some c2) :
    c2.values.all cellNumeric = true := by
  unfold convertColumn at h
  cases ha : astypeFloatList (c.values.map replaceCurrencyCell) with
  | none =>
    rw [ha] at h
    cases h
  | some ws =>
    rw [ha] at h
    cases h
    exact astypeFloatList_numeric _ ws ha

theorem convertCols_none_iff (cs : List Column) :
    (convertCols cs).2 = none ↔
      ∀ c ∈ cs, colQualifies c = true → convertColumn c ≠ none := by
  induction cs with
  | nil => simp [convertCols]
  | cons c cs ih =>
    simp only [convertCols]
    by_cases hq : colQualifies c = true
    · rw [if_pos hq]
      cases hc : convertColumn c with
      | none =>
        constructor
        · intro h
          cases h
        · intro h
          exact absurd hc (h c (List.mem_cons_self c cs) hq)
      | some c2 =>
        constructor
        · intro h d hd hdq
          rcases List.mem_cons.mp hd with rfl | hd2
          · rw [hc]
            simp
          · exact ih.mp h d hd2 hdq
        · intro h
          exact ih.mpr (fun d hd hdq => h d (List.mem_cons_of_mem c hd) hdq)
    · rw [if_neg hq]
      constructor
      · intro h d hd hdq
        rcases List.mem_cons.mp hd with rfl | hd2
        · exact absurd hdq hq
        · exact ih.mp h d hd2 hdq
      · intro h
        exact ih.mpr (fun d hd hdq => h d (List.mem_cons_of_mem c hd) hdq)

theorem convertCols_fst_of_none (cs : List Column)
    (h : (convertCols cs).2 = none) : (convertCols cs).1 = cs.map stepCol := by
  induction cs with
  | nil => simp [convertCols]
  | cons c cs ih =>
    by_cases hq : colQualifies c = true
    · cases hc : convertColumn c with
      | none =>
        simp only [convertCols, hq, hc, if_true] at h
        cases h
      | some c2 =>
        simp only [convertCols, hq, hc, if_true] at h ⊢
        simp only [List.map_cons]
        rw [ih h]
        simp [stepCol, hq, hc]
    · have hq2 : colQualifies c = false := by simpa using hq
      simp only [convertCols, hq2, Bool.false_eq_true, if_false] at h ⊢
      simp only [List.map_cons]
      rw [ih h]
      simp [stepCol, hq2]

theorem convertCols_some_iff (cs : List Column) :
    (∃ e, (convertCols cs).2 = some e) ↔
      ∃ c ∈ cs, colQualifies c = true ∧ convertColumn c = none := by
  constructor
  · intro ⟨e, he⟩
    by_contra hno
    push_neg at hno
    have : (convertCols cs).2 = none :=
      (convertCols_none_iff cs).mpr (fun c hc hq => hno c hc hq)
    rw [this] at he
    cases he
  · intro ⟨c, hc, hq, hbad⟩
    cases he : (convertCols cs).2 with
    | none => exact absurd hbad ((convertCols_none_iff cs).mp he c hc hq)
    | some e => exact ⟨e, rfl⟩

theorem convertCols_of_no_qual (cs : List Column)
    (h : ∀ c ∈ cs, colQualifies c = false) : convertCols cs = (cs, none) := by
  induction cs with
  | nil => simp [convertCols]
  | cons c cs ih =>
    simp only [convertCols]
    rw [if_neg (by simp [h c (List.mem_cons_self c cs)])]
    rw [ih (fun d hd => h d (List.mem_cons_of_mem c hd))]

theorem convert_eq_match (t : Table) :
    convert_currency_columns t =
      match (convertCols t.cols).2 with
      | none => .ok ⟨(convertCols t.cols).1⟩
      | some e => .error e := by
  unfold convert_currency_columns convertRun
  rcases hr : convertCols t.cols with ⟨cs2, e2⟩
  cases e2 <;> rfl

theorem convert_eq_ok_iff {t t2 : Table} :
    convert_currency_columns t = .ok t2 ↔
      ((convertCols t.cols).2 = none ∧ t2.cols = (convertCols t.cols).1) := by
  rw [convert_eq_match t]
  cases he : (convertCols t.cols).2 with
  | none =>
    constructor
    · intro h
      cases h
      exact ⟨rfl, rfl⟩
    · intro ⟨_, h2⟩
      cases t2
      simp only at h2
      rw [h2]
  | some e =>
    constructor
    · intro h
      cases h
    · intro ⟨h1, _⟩
      cases h1

theorem convert_ok_cols {t t2 : Table} (h : convert_currency_columns t = .ok t2) :
    t2.cols = t.cols.map stepCol := by
  obtain ⟨h1, h2⟩ := convert_eq_ok_iff.mp h
  rw [h2, convertCols_fst_of_none t.cols h1]

theorem convert_error_iff (t : Table) :
    (∃ e, convert_currency_columns t = .error e) ↔
      ∃ c ∈ t.cols, colQualifies c = true ∧ ∃ v ∈ c.values, badCell v = true := by
  rw [convert_eq_match t]
  cases he : (convertCols t.cols).2 with
  | none =>
    constructor
    · intro ⟨e, hh⟩
      cases hh
    · intro ⟨c, hc, hq, hbad⟩
      obtain ⟨e, he2⟩ := (convertCols_some_iff t.cols).mpr
        ⟨c, hc, hq, (convertColumn_eq_none_iff c).mpr hbad⟩
      rw [he] at he2
      cases he2
  | some e =>
    constructor
    · intro _
      obtain ⟨c, hc, hq, hbad⟩ := (convertCols_some_iff t.cols).mp ⟨e, he⟩
      exact ⟨c, hc, hq, (convertColumn_eq_none_iff c).mp hbad⟩
    · intro _
      exact ⟨e, rfl⟩

theorem colQualifies_stepCol (c : Column)
    (h : colQualifies c = true → convertColumn c ≠ none) :
    colQualifies (stepCol c) = false := by
  unfold stepCol
  by_cases hq : colQualifies c = true
  · rw [if_pos hq]
    cases hc : convertColumn c with
    | none => exact absurd hc (h hq)
    | some c2 =>
      have hd := convertColumn_dtype hc
      simp only [Option.getD_some]
      unfold colQualifies
      rw [hd]
  · rw [if_neg hq]
    simpa using hq

theorem convert_ok_idem {t t2 : Table} (h : convert_currency_columns t = .ok t2) :
    convert_currency_columns t2 = .ok t2 := by
  obtain ⟨h1, _⟩ := convert_eq_ok_iff.mp h
  have hmap := convert_ok_cols h
  have hnoq : ∀ c2 ∈ t2.cols, colQualifies c2 = false := by
    intro c2 hc2
    rw [hmap] at hc2
    obtain ⟨c, hc, rfl⟩ := List.mem_map.mp hc2
    exact colQualifies_stepCol c ((convertCols_none_iff t.cols).mp h1 c hc)
  rw [convert_eq_ok_iff]
  rw [convertCols_of_no_qual t2.cols hnoq]
  exact ⟨rfl, rfl⟩

theorem map_self_eq {α : Type} (f : α → α) :
    ∀ (l : List α), l.map f = l → ∀ x ∈ l, f x = x := by
  intro l
  induction l with
  | nil =>
    intro _ x hx
    cases hx
  | cons a l ih =>
    intro h x hx
    simp only [List.map_cons, List.cons.injEq] at h
    rcases List.mem_cons.mp hx with rfl | hx2
    · exact h.1
    · exact ih h.2 x hx2

theorem colQualifies_object {c : Column} (h : colQualifies c = true) :
    c.dtype = Dtype.object := by
  unfold colQualifies at h
  cases hd : c.dtype with
  | object => rfl
  | float64 =>
    rw [hd] at h
    cases h

/-! ### Concrete fixtures -/

/-- A contract table with one currency column, one row. -/
def contractC1 : Table :=
  ⟨[⟨"Name", Dtype.object, [PyVal.str "A"]⟩,
    ⟨"AAV", Dtype.object, [PyVal.str "$1,200"]⟩]⟩

/-- A dataset holding `contractC1` as the hitters/25/contract entry. -/
def dsC1 : Dataset := fun cat y k =>
  match cat, y, k with
  | .hitters, 25, .contract => contractC1
  | _, _, _ => emptyTable

/-- Contract mode, year 2025, hitters, one selected player. -/
def scpC1 : SCParams := ⟨Mode.contractData, [2025], PlayerCategory.hitters, ["A"]⟩

def tC1w : Table := ⟨[⟨"AAV", Dtype.object, [PyVal.str "$5"]⟩]⟩

def tC1w2 : Table := ⟨[⟨"AAV", Dtype.float64, [PyVal.float 5]⟩]⟩

/-! ### C1 -/

/-- C1: the claim states that `convert_currency_columns` leaves its input
object unchanged and that the table stored in the Dataset for any key is
identical before and after any view render.  Counterexample: rendering the
Search & Compare page over `dsC1` succeeds, yet afterwards the table stored
at (hitters, 25, contract) differs from the one stored there before the
render — the currency column was rewritten in place. -/
theorem c1_counterexample :
    (renderSC_app dsC1 scpC1).2.isOk = true ∧
      (renderSC_app dsC1 scpC1).1 PlayerCategory.hitters 25 DataKind.contract ≠
        dsC1 PlayerCategory.hitters 25 DataKind.contract := by
  decide

/-- C1 (amended): `convert_currency_columns` mutates its input in place.
Whenever it succeeds on a table with at least one qualifying (object-dtype,
dollar-prefixed) column, the resulting table object differs from the
original, and a Search & Compare render stores the normalized table — the
state of the mutated object — back at the dataset key it read. -/
theorem c1_convert_mutates_input :
    (∀ t t2 : Table, convert_currency_columns t = Except.ok t2 →
        (∃ c ∈ t.cols, colQualifies c = true) → t2 ≠ t)
    ∧ (renderSC_app dsC1 scpC1).1 PlayerCategory.hitters 25 DataKind.contract =
        (convertRun (dsC1 PlayerCategory.hitters 25 DataKind.contract)).1 := by
  constructor
  · rintro t t2 h ⟨c, hc, hq⟩ heq
    subst heq
    have hmap := convert_ok_cols h
    have hstep : stepCol c = c := map_self_eq stepCol t2.cols hmap.symm c hc
    have hnn : convertColumn c ≠ none := by
      obtain ⟨h1, _⟩ := convert_eq_ok_iff.mp h
      exact (convertCols_none_iff t2.cols).mp h1 c hc hq
    cases hcc : convertColumn c with
    | none => exact absurd hcc hnn
    | some c2 =>
      have hs2 : stepCol c = c2 := by simp [stepCol, hq, hcc]
      have hdt : c.dtype = Dtype.float64 := by
        rw [← hstep, hs2]
        exact convertColumn_dtype hcc
      rw [colQualifies_object hq] at hdt
      cases hdt
  · decide

/-- C1 (witness for the amended theorem). -/
theorem c1_witness : tC1w2 ≠ tC1w :=
  c1_convert_mutates_input.1 tC1w tC1w2 (by decide)
    ⟨⟨"AAV", Dtype.object, [PyVal.str "$5"]⟩, by decide, by decide⟩

/-! ### C5 -/

/-- C5: a text column holding exactly `["$1,200", "$950"]` is rewritten by
`convert_currency_columns` to the numeric values `[1200.0, 950.0]` (at the
same column position, with the numeric dtype), whenever the call returns. -/
theorem c5_normalizer_round_trip (t t2 : Table)
    (h : convert_currency_columns t = Except.ok t2) (i : Nat) (n : String)
    (hc : t.cols[i]? = some ⟨n, Dtype.object, [PyVal.str "$1,200", PyVal.str "$950"]⟩) :
    t2.cols[i]? = some ⟨n, Dtype.float64, [PyVal.float 1200, PyVal.float 950]⟩ := by
  rw [convert_ok_cols h, List.getElem?_map, hc]
  rfl

def tRT : Table := ⟨[⟨"AAV", Dtype.object, [PyVal.str "$1,200", PyVal.str "$950"]⟩]⟩

def tRT2 : Table := ⟨[⟨"AAV", Dtype.float64, [PyVal.float 1200, PyVal.float 950]⟩]⟩

/-- C5 (witness). -/
theorem c5_witness :
    tRT2.cols[0]? = some ⟨"AAV", Dtype.float64, [PyVal.float 1200, PyVal.float 950]⟩ :=
  c5_normalizer_round_trip tRT tRT2 (by decide) 0 "AAV" (by decide)

/-! ### C6 -/

/-- C6: the Currency Normalizer is idempotent — composing
`convert_currency_columns` with itself gives the same result as one
application (in particular, normalizing an already-normalized table is a
no-op, and a raised exception propagates unchanged). -/
theorem c6_normalizer_idempotent (t : Table) :
    (convert_currency_columns t).bind convert_currency_columns =
      convert_currency_columns t := by
  cases h : convert_currency_columns t with
  | error e => rfl
  | ok t2 =>
    show convert_currency_columns t2 = Except.ok t2
    exact convert_ok_idem h

/-! ### C7 -/

/-- C7: for a qualifying column (dtype object with at least one
dollar-prefixed value — in particular any text column mixing
currency-formatted and plain numeric strings), a successful call converts
every value of that column to a number, and the call raises a parse error
if and only if some qualifying column holds an entry that cannot be parsed
after stripping the currency symbol and thousands separators. -/
theorem c7_mixed_column_conversion (t : Table) :
    (∀ t2 : Table, convert_currency_columns t = Except.ok t2 →
      ∀ (i : Nat) (c : Column), t.cols[i]? = some c → colQualifies c = true →
        ∃ c2 : Column, t2.cols[i]? = some c2 ∧ c2.values.all cellNumeric = true)
    ∧ ((∃ e, convert_currency_columns t = Except.error e)
        ↔ ∃ c ∈ t.cols, colQualifies c = true ∧ ∃ v ∈ c.values, badCell v = true) := by
  constructor
  · intro t2 h i c hc hq
    have hmem : c ∈ t.cols := List.getElem?_mem hc
    have hnn : convertColumn c ≠ none := by
      obtain ⟨h1, _⟩ := convert_eq_ok_iff.mp h
      exact (convertCols_none_iff t.cols).mp h1 c hmem hq
    refine ⟨stepCol c, ?_, ?_⟩
    · rw [convert_ok_cols h, List.getElem?_map, hc]
      rfl
    · cases hcc : convertColumn c with
      | none => exact absurd hcc hnn
      | some c2 =>
        have hs2 : stepCol c = c2 := by simp [stepCol, hq, hcc]
        rw [hs2]
        exact convertColumn_values_numeric hcc
  · exact convert_error_iff t

def tBadC7 : Table :=
  ⟨[⟨"Price", Dtype.object, [PyVal.str "$7", PyVal.str "n/a"]⟩]⟩

/-- C7 (witness): a successful conversion of a mixed column yields all
numbers, and an unparsable entry in a qualifying column makes the call
raise. -/
theorem c7_witness :
    (∃ c2, tRT2.cols[0]? = some c2 ∧ c2.values.all cellNumeric = true)
    ∧ (∃ e, convert_currency_columns tBadC7 = Except.error e) :=
  ⟨(c7_mixed_column_conversion tRT).1 tRT2 (by decide) 0
      ⟨"AAV", Dtype.object, [PyVal.str "$1,200", PyVal.str "$950"]⟩ (by decide) (by decide),
   (c7_mixed_column_conversion tBadC7).2.mpr
      ⟨⟨"Price", Dtype.object, [PyVal.str "$7", PyVal.str "n/a"]⟩, by decide, by decide,
        PyVal.str "n/a", by decide, by decide⟩⟩

/-! ### C2 -/

/-- A filesystem with every expected CSV absent. -/
def fsNone : FileSystem := fun _ => ReadResult.missing

/-- C2: the claim states that a missing source file makes `load_data` fail
with a `DataUnavailable` error which the calling view surfaces as a
readable message.  Counterexample: with the source files absent, the whole
script run aborts with the raw propagated `FileNotFoundError` before any
view runs — no view-level error type or handler exists in the code, and no
message item is rendered. -/
theorem c2_counterexample :
    appRun fsNone Page.home = Except.error (PyError.fileNotFound "hitters_22.csv") := rfl

/-- C2 (amended): if an expected source file is absent (here the first one
read, `hitters_22.csv`), `load_data` raises the underlying file error; the
exception propagates uncaught out of the whole script run, so no view
renders anything — displaying the exception is left to the framework
outside this code. -/
theorem c2_load_error_propagates (fs : FileSystem) (pg : Page)
    (h : fs "hitters_22.csv" = ReadResult.missing) :
    appRun fs pg = Except.error (PyError.fileNotFound "hitters_22.csv") := by
  unfold appRun load_data readCsv
  rw [h]
  rfl

/-- C2 (witness for the amended theorem). -/
theorem c2_witness :
    appRun fsNone (Page.fa2025 Mode.performanceData) =
      Except.error (PyError.fileNotFound "hitters_22.csv") :=
  c2_load_error_propagates fsNone (Page.fa2025 Mode.performanceData) rfl

/-! ### C4 -/

/-- A performance table with two players. -/
def perfC4 : Table :=
  ⟨[⟨"Name", Dtype.object, [PyVal.str "A", PyVal.str "B"]⟩,
    ⟨"WAR", Dtype.float64, [PyVal.float 2, PyVal.float 1]⟩]⟩

def dsC4 : Dataset := fun cat y k =>
  match cat, y, k with
  | .hitters, 25, .performance => perfC4
  | _, _, _ => emptyTable

def scpC4 : SCParams := ⟨Mode.performanceData, [2025], PlayerCategory.hitters, ["A", "B"]⟩

/-- C4: the claim states both entry points produce equivalent rendered
output for every page and selection.  Counterexample: on Search & Compare
with two selected hitters, `app.py` renders the comparison header and the
transposed comparison table, while `fa_tracker.py` has no comparison block
at all, so the rendered outputs differ. -/
theorem c4_counterexample :
    (appMain dsC4 (Page.searchCompare scpC4)).2 ≠
      (faMain dsC4 (Page.searchCompare scpC4)).2 := by
  decide

/-- C4 (amended): the two entry points agree on the Home, 2025 Free Agents
and Top Leaders pages for every dataset and every selection; they differ on
Search & Compare (`app.py` renders a comparison table and the raw pitch
table, `fa_tracker.py` renders per-pitcher pie charts and no comparison). -/
theorem c4_agreement_outside_search_compare :
    ∀ d : Dataset,
      appMain d Page.home = faMain d Page.home
      ∧ (∀ m : Mode, appMain d (Page.fa2025 m) = faMain d (Page.fa2025 m))
      ∧ (∀ p : TLParams, appMain d (Page.top p) = faMain d (Page.top p)) := by
  intro d
  exact ⟨rfl, fun m => rfl, fun p => rfl⟩

/-! ### C3 -/

/-- The spec example table: WAR values [3.1, 5.0, 1.2, 5.0] for names
[A, B, C, D]. -/
def warTable : Table :=
  ⟨[⟨"Name", Dtype.object, [PyVal.str "A", PyVal.str "B", PyVal.str "C", PyVal.str "D"]⟩,
    ⟨"WAR", Dtype.float64,
      [PyVal.float (mkRat 31 10), PyVal.float 5, PyVal.float (mkRat 12 10), PyVal.float 5]⟩]⟩

theorem find?_name_map (cols : List Column) (g : Column → Column)
    (hg : ∀ c, (g c).name = c.name) (n : String) :
    List.find? (fun c => c.name == n) (cols.map g) =
      (List.find? (fun c => c.name == n) cols).map g := by
  induction cols with
  | nil => rfl
  | cons c cs ih =>
    simp only [List.map_cons, List.find?_cons, hg c]
    cases hb : (c.name == n) with
    | true => rfl
    | false => exact ih

theorem getColOpt_selectRows (t : Table) (idxs : List Nat) (n : String) :
    getColOpt (selectRows t idxs) n =
      (getColOpt t n).map (fun c =>
        { name := c.name, dtype := c.dtype,
          values := idxs.map (fun i => c.values.getD i PyVal.nan) }) := by
  unfold getColOpt selectRows
  exact find?_name_map t.cols
    (fun c => { name := c.name, dtype := c.dtype,
                values := idxs.map (fun i => c.values.getD i PyVal.nan) })
    (fun c => rfl) n

theorem colValuesD_selectRows (t : Table) (idxs : List Nat) (n : String) :
    colValuesD (selectRows t idxs) n =
      match getColOpt t n with
      | some c => idxs.map (fun i => c.values.getD i PyVal.nan)
      | none => [] := by
  unfold colValuesD
  rw [getColOpt_selectRows]
  cases getColOpt t n <;> rfl

theorem numPairs_mem_spec (vs : List PyVal) {q : Nat × Rat}
    (h : q ∈ numPairs vs) : vs.getD q.1 PyVal.nan = PyVal.float q.2 := by
  obtain ⟨p, hp, hpx⟩ := List.mem_filterMap.mp h
  obtain ⟨a, ha, hqa⟩ := Option.map_eq_some'.mp hpx
  have hv : vs[p.1]? = some p.2 := List.mem_enum_iff_getElem?.mp hp
  have hfa : p.2 = PyVal.float a := by
    cases p2 : p.2 with
    | float x =>
      rw [p2] at ha
      cases ha
      rfl
    | str s =>
      rw [p2] at ha
      cases ha
    | nan =>
      rw [p2] at ha
      cases ha
  rw [← hqa, List.getD_eq_getElem?_getD, hv, hfa]
  rfl

theorem nanIdxs_mem_spec (vs : List PyVal) {i : Nat} (h : i ∈ nanIdxs vs) :
    numKey (vs.getD i PyVal.nan) = none := by
  obtain ⟨p, hp, rfl⟩ := List.mem_map.mp h
  have hmem := (List.mem_filter.mp hp).1
  have hnone := (List.mem_filter.mp hp).2
  have hv : vs[p.1]? = some p.2 := List.mem_enum_iff_getElem?.mp hmem
  rw [List.getD_eq_getElem?_getD, hv]
  simpa [Option.isNone_iff_eq_none] using hnone

theorem sorted_desc_keys (vs : List PyVal) (k : Nat) :
    ((((argsortDesc vs).take k).map (fun i => vs.getD i PyVal.nan)).filterMap numKey).Sorted
      (fun a b : Rat => b ≤ a) := by
  unfold argsortDesc
  rw [List.take_append_eq_append_take, List.map_append, List.filterMap_append]
  have htail :
      (((nanIdxs vs).take (k - ((List.insertionSort pairLe
          (numPairs vs).reverse).reverse.map (fun p : Nat × Rat => p.1)).length)).map
        (fun i => vs.getD i PyVal.nan)).filterMap numKey = [] := by
    rw [List.filterMap_eq_nil_iff]
    intro a ha
    obtain ⟨i, hi, rfl⟩ := List.mem_map.mp ha
    exact nanIdxs_mem_spec vs (List.mem_of_mem_take hi)
  rw [htail, List.append_nil, ← List.map_take, List.map_map]
  have hpoint :
      ∀ p ∈ ((List.insertionSort pairLe (numPairs vs).reverse).reverse).take k,
        ((fun i => vs.getD i PyVal.nan) ∘ (fun p : Nat × Rat => p.1)) p = PyVal.float p.2 := by
    intro p hp
    have h1 : p ∈ (List.insertionSort pairLe (numPairs vs).reverse).reverse :=
      List.mem_of_mem_take hp
    have h2 : p ∈ numPairs vs := by
      rw [List.mem_reverse, List.mem_insertionSort, List.mem_reverse] at h1
      exact h1
    exact numPairs_mem_spec vs h2
  rw [List.map_congr_left hpoint]
  have hcoe : (fun p : Nat × Rat => PyVal.float p.2) =
      (fun p : Nat × Rat => PyVal.float p.2) := rfl
  rw [show ((((List.insertionSort pairLe (numPairs vs).reverse).reverse).take k).map
        (fun p : Nat × Rat => PyVal.float p.2)).filterMap numKey =
      (((List.insertionSort pairLe (numPairs vs).reverse).reverse).take k).map
        (fun p : Nat × Rat => p.2) from by
    rw [List.filterMap_map]
    exact congrFun (List.filterMap_eq_map (fun p : Nat × Rat => p.2)) _]
  have hsorted : List.Sorted pairLe
      (List.insertionSort pairLe (numPairs vs).reverse) :=
    List.sorted_insertionSort pairLe _
  have hrev : List.Pairwise (fun a b : Nat × Rat => pairLe b a)
      ((List.insertionSort pairLe (numPairs vs).reverse).reverse) :=
    List.pairwise_reverse.mpr hsorted
  have htake := hrev.sublist (List.take_sublist k _)
  exact htake.map (fun p : Nat × Rat => p.2) (fun a b hle => hle)

/-- C3: Top Leaders sorts descending and keeps at most ten rows, with ties
in original row order.  On the spec's example (WAR values [3.1, 5.0, 1.2,
5.0] for names [A, B, C, D]) the result order is [B, D, A, C]: pandas
implements the descending sort by reversing the values, argsorting
ascending and reversing the indexer, which preserves the original order of
ties when the underlying argsort is stable (as it is for arrays this
small).  Also, for every table, the selected statistic values of the
output are sorted descending and the output has at most ten rows. -/
theorem c3_top_leaders :
    (colValuesD (topLeadersTable warTable "WAR") "Name" =
      [PyVal.str "B", PyVal.str "D", PyVal.str "A", PyVal.str "C"])
    ∧ (∀ (t : Table) (stat : String), nRows (topLeadersTable t stat) ≤ 10)
    ∧ (∀ (t : Table) (stat : String),
        ((colValuesD (topLeadersTable t stat) stat).filterMap numKey).Sorted
          (fun a b : Rat => b ≤ a)) := by
  refine ⟨by decide, ?_, ?_⟩
  · intro t stat
    unfold topLeadersTable
    cases hc : t.cols with
    | nil => simp [nRows, selectRows, hc]
    | cons c cs =>
      have hn : nRows (selectRows t ((argsortDesc (colValuesD t stat)).take 10)) =
          ((argsortDesc (colValuesD t stat)).take 10).length := by
        unfold nRows selectRows
        rw [hc]
        simp
      rw [hn]
      exact List.length_take_le 10 _
  · intro t stat
    unfold topLeadersTable
    rw [colValuesD_selectRows]
    cases hg : getColOpt t stat with
    | none => exact List.sorted_nil
    | some c =>
      have hvals : colValuesD t stat = c.values := by
        unfold colValuesD
        rw [hg]
      rw [hvals]
      exact sorted_desc_keys c.values 10

/-! ### C8 -/

theorem maskFilter_map_length (f : PyVal → Bool) (vs : List PyVal) :
    (maskFilter (vs.map f) vs).length = vs.countP f := by
  induction vs with
  | nil => rfl
  | cons v vs ih =>
    unfold maskFilter at ih ⊢
    simp only [List.map_cons, List.zip_cons_cons, List.filter_cons, List.countP_cons]
    cases hf : f v <;> simp [hf, ih]

theorem setIndexTranspose_cols_length (t : Table) :
    (setIndexTranspose t).cols.length = (colValuesD t "Name").length := by
  simp [setIndexTranspose]

theorem colValuesD_filterByName (t : Table) (sel : List String) (n : String) :
    colValuesD (filterByName t sel) n =
      match getColOpt t n with
      | some c => maskFilter (isinNameMask t sel) c.values
      | none => [] := by
  unfold colValuesD
  have hfind : getColOpt (filterByName t sel) n =
      (getColOpt t n).map (fun c =>
        { name := c.name, dtype := c.dtype,
          values := maskFilter (isinNameMask t sel) c.values }) := by
    unfold getColOpt filterByName
    exact find?_name_map t.cols
      (fun c => { name := c.name, dtype := c.dtype,
                  values := maskFilter (isinNameMask t sel) c.values })
      (fun c => rfl) n
  rw [hfind]
  cases getColOpt t n <;> rfl

/-- Number of rows of a table whose `Name` cell is one of the selected
strings — the number of rows `df["Name"].isin(sel)` keeps. -/
def matchedRows (t : Table) (sel : List String) : Nat :=
  (colValuesD t "Name").countP (nameMatches sel)

theorem transpose_filter_count (t : Table) (sel : List String) :
    (setIndexTranspose (filterByName t sel)).cols.length = matchedRows t sel := by
  rw [setIndexTranspose_cols_length, colValuesD_filterByName]
  unfold matchedRows
  cases hg : getColOpt t "Name" with
  | none =>
    unfold colValuesD
    rw [hg]
    rfl
  | some c =>
    have hv : colValuesD t "Name" = c.values := by
      unfold colValuesD
      rw [hg]
    rw [hv]
    unfold isinNameMask
    rw [hv]
    exact maskFilter_map_length (nameMatches sel) c.values

/-- C8 (amended): on a successful Search & Compare render, the output is
the header block and combined table, then — exactly when fewer than two
players are selected — the validation warning and no comparison table,
otherwise the comparison header and the transposed comparison table; that
table has one column per row of the combined dataframe whose `Name` is
among the selected players (which equals the number of selected players
only when each selected name occurs in exactly one combined row). -/
theorem c8_compare_section (d : Dataset) (p : SCParams) (out : List RenderItem)
    (h : (renderSC_app d p).2 = Except.ok out) :
    ∃ (combined : Table) (rest : List RenderItem),
      out = [RenderItem.title "Search & Compare Free Agents",
             RenderItem.markdown (scHeader p),
             RenderItem.dataEditor combined]
        ++ (if p.sel.length < 2 then
              [RenderItem.warning "Please select at least 2 players for comparison."]
            else
              [RenderItem.markdown (cmpHeader p),
               RenderItem.dataEditor (setIndexTranspose (filterByName combined p.sel))])
        ++ rest
      ∧ (setIndexTranspose (filterByName combined p.sel)).cols.length =
          matchedRows combined p.sel := by
  simp only [renderSC_app] at h
  rcases hloop : scLoop p.playerType (dataKindOf p.mode) d p.years with ⟨d1, ts, e1⟩
  cases e1 with
  | some e =>
    simp only [hloop] at h
    simp at h
  | none =>
    simp only [hloop] at h
    cases hcat : concatTables ts with
    | error e =>
      simp only [hcat] at h
      simp at h
    | ok combined =>
      simp only [hcat] at h
      cases hname : getColOpt combined "Name" with
      | none =>
        simp only [hname] at h
        simp at h
      | some c0 =>
        simp only [hname] at h
        cases hpt : p.playerType with
        | hitters =>
          simp only [hpt] at h
          simp only [Except.ok.injEq] at h
          refine ⟨combined, [], ?_, transpose_filter_count combined p.sel⟩
          rw [← h]
          simp [compareItems]
        | pitchers =>
          simp only [hpt] at h
          rcases hloop2 : scLoop PlayerCategory.pitchers DataKind.pitches d1 p.years
            with ⟨d2, pts, e2⟩
          cases e2 with
          | some e =>
            simp only [hloop2] at h
            simp at h
          | none =>
            simp only [hloop2] at h
            cases hcat2 : concatTables pts with
            | error e =>
              simp only [hcat2] at h
              simp at h
            | ok allPitch =>
              simp only [hcat2] at h
              cases hname2 : getColOpt allPitch "Name" with
              | none =>
                simp only [hname2] at h
                simp at h
              | some c1 =>
                simp only [hname2] at h
                simp only [Except.ok.injEq] at h
                refine ⟨combined,
                  RenderItem.markdown "### Pitch Type Usage & Performance" ::
                    (if tableEmpty (filterByName allPitch p.sel) then
                      [RenderItem.warning "No pitch type data available for the selected players."]
                    else
                      [RenderItem.dataEditor (filterByName allPitch p.sel)]),
                  ?_, transpose_filter_count combined p.sel⟩
                rw [← h]
                simp [compareItems]

/-- Tables for the C8 counterexample: player A appears in both selected
seasons, so the combined dataframe holds two A rows. -/
def perf24C8 : Table :=
  ⟨[⟨"Name", Dtype.object, [PyVal.str "A", PyVal.str "X"]⟩,
    ⟨"WAR", Dtype.float64, [PyVal.float 1, PyVal.float 2]⟩]⟩

def perf25C8 : Table :=
  ⟨[⟨"Name", Dtype.object, [PyVal.str "A", PyVal.str "B"]⟩,
    ⟨"WAR", Dtype.float64, [PyVal.float 3, PyVal.float 4]⟩]⟩

def dsC8 : Dataset := fun cat y k =>
  match cat, y, k with
  | .hitters, 24, .performance => perf24C8
  | .hitters, 25, .performance => perf25C8
  | _, _, _ => emptyTable

def scpC8 : SCParams := ⟨Mode.performanceData, [2024, 2025], PlayerCategory.hitters, ["A", "B"]⟩

/-- The rendered items of a view result (empty on an aborted render). -/
def outOf (r : Dataset × Except PyError (List RenderItem)) : List RenderItem :=
  match r.2 with
  | .ok l => l
  | .error _ => []

/-- Column count of a rendered table item. -/
def itemCols : RenderItem → Nat
  | .dataEditor t => t.cols.length
  | _ => 0

/-- C8: the claim states the comparison table has exactly as many columns
as selected players.  Counterexample: two players are selected over the
seasons 2024 and 2025, player A appears in both seasons, and the rendered
comparison table (the item after the comparison header) has three columns,
not two. -/
theorem c8_counterexample :
    scpC8.sel.length = 2
    ∧ (outOf (renderSC_app dsC8 scpC8)).getD 3 (RenderItem.title "") =
        RenderItem.markdown (cmpHeader scpC8)
    ∧ itemCols ((outOf (renderSC_app dsC8 scpC8)).getD 4 (RenderItem.title "")) = 3 := by
  decide

/-- C8 (witness for the amended theorem). -/
theorem c8_witness :
    ∃ (combined : Table) (rest : List RenderItem),
      outOf (renderSC_app dsC4 scpC4) =
        [RenderItem.title "Search & Compare Free Agents",
         RenderItem.markdown (scHeader scpC4),
         RenderItem.dataEditor combined]
        ++ (if scpC4.sel.length < 2 then
              [RenderItem.warning "Please select at least 2 players for comparison."]
            else
              [RenderItem.markdown (cmpHeader scpC4),
               RenderItem.dataEditor (setIndexTranspose (filterByName combined scpC4.sel))])
        ++ rest
      ∧ (setIndexTranspose (filterByName combined scpC4.sel)).cols.length =
          matchedRows combined scpC4.sel :=
  c8_compare_section dsC4 scpC4 (outOf (renderSC_app dsC4 scpC4)) (by decide)

/-! ### C9 and C10 -/

/-- If the column `mk q` is absent from `pitcher_data`, the extracted
association list has no entry for `q`, so `dict.get` yields `None`. -/
theorem lookupA_extractOver_absent (ps : List String) (pd : Table) (mk : String → String)
    (q : String) (habs : getColOpt pd (mk q) = none) :
    lookupA (extractOver ps pd mk) q = none := by
  induction ps with
  | nil => rfl
  | cons p ps ih =>
    unfold extractOver at ih ⊢
    simp only [List.filterMap_cons]
    cases hc : getColOpt pd (mk p) with
    | none => exact ih
    | some c =>
      unfold lookupA
      rw [List.find?_cons]
      cases hpq : ((p, c.values.getD 0 PyVal.nan).1 == q) with
      | false => exact ih
      | true =>
        have : p = q := by simpa using hpq
        rw [this] at hc
        rw [hc] at habs
        cases habs
  
theorem parseUsage_all_rejected (l : List (String × PyVal))
    (h : ∀ pv ∈ l, usageAccepted pv.2 = false) : parseUsage l = .ok [] := by
  induction l with
  | nil => rfl
  | cons pv l ih =>
    unfold parseUsage
    rcases pv with ⟨p, v⟩
    rw [if_neg (by simp [h (p, v) (List.mem_cons_self _ _)])]
    exact ih (fun qv hq => h qv (List.mem_cons_of_mem _ hq))

/-- Shared shape lemma: a nonempty pitcher selection whose usage parse
comes back empty renders the header and the no-valid-usage warning. -/
theorem pitcherSection_warning_of_empty_usage (spd : Table) (name : String)
    (hne : tableEmpty (filterByName spd [name]) = false)
    (hparse : parseUsage (extractPitch (filterByName spd [name]) (fun p => p ++ "%")) =
      Except.ok []) :
    pitcherSection spd name =
      Except.ok [pitcherHeader name, RenderItem.warning (noValidUsageMsg name)] := by
  simp [pitcherSection, hne, hparse]

/-- The pitcher row of the C9 concrete instance: `SL%="45.0%"`,
`vSL=88.2`, and no `wSL` or `Stf+ SL` columns. -/
def spd9 : Table :=
  ⟨[⟨"Name", Dtype.object, [PyVal.str "P"]⟩,
    ⟨"SL%", Dtype.object, [PyVal.str "45.0%"]⟩,
    ⟨"vSL", Dtype.float64, [PyVal.float (mkRat 441 5)]⟩]⟩

/-- C9: in the pitch-mix breakdown, a pitch-type field missing from the
source row is silently omitted — its `Value`/`Stuff` entry is `None`, not
an error: on the concrete row with `SL%="45.0%"`, `vSL=88.2` and no
`wSL`/`Stf+ SL` columns, the breakdown is one SL row with Velo 88.2 and
null Value and Stuff; in general every breakdown row has `None` for each
absent `w`/`Stf+` column; and a pitcher row with no parsable usage for any
pitch type yields the visible no-valid-usage warning. -/
theorem c9_pitch_breakdown :
    (pitcherSection spd9 "P" =
      Except.ok [pitcherHeader "P",
        RenderItem.pieChart [⟨"SL", 45, some (PyVal.float (mkRat 441 5)), none, none⟩]])
    ∧ (∀ (spd : Table) (name : String) (items : List RenderItem) (rs : List PitchRow),
        pitcherSection spd name = Except.ok items →
        RenderItem.pieChart rs ∈ items →
        ∀ r ∈ rs,
          (getColOpt (filterByName spd [name]) ("w" ++ r.ptype) = none → r.wval = none)
          ∧ (getColOpt (filterByName spd [name]) ("Stf+ " ++ r.ptype) = none →
              r.stuff = none))
    ∧ (∀ (spd : Table) (name : String),
        tableEmpty (filterByName spd [name]) = false →
        parseUsage (extractPitch (filterByName spd [name]) (fun p => p ++ "%")) =
          Except.ok [] →
        pitcherSection spd name =
          Except.ok [pitcherHeader name, RenderItem.warning (noValidUsageMsg name)]) := by
  refine ⟨by decide, ?_, pitcherSection_warning_of_empty_usage⟩
  intro spd name items rs hsec hmem r hr
  simp only [pitcherSection] at hsec
  by_cases hemp : tableEmpty (filterByName spd [name]) = true
  · rw [if_pos hemp] at hsec
    simp only [Except.ok.injEq] at hsec
    subst hsec
    simp [pitcherHeader] at hmem
  · rw [if_neg hemp] at hsec
    cases hparse : parseUsage (extractPitch (filterByName spd [name]) (fun p => p ++ "%")) with
    | error e =>
      simp only [hparse] at hsec
      exact Except.noConfusion hsec
    | ok usage =>
      simp only [hparse] at hsec
      by_cases hus : usage.isEmpty = true
      · rw [if_pos hus] at hsec
        simp only [Except.ok.injEq] at hsec
        subst hsec
        simp [pitcherHeader] at hmem
      · rw [if_neg hus] at hsec
        simp only [Except.ok.injEq] at hsec
        subst hsec
        simp only [List.mem_cons, List.not_mem_nil, or_false, pitcherHeader] at hmem
        rcases hmem with hmem | hmem
        · cases hmem
        · injection hmem with hrs
          subst hrs
          obtain ⟨pu, hpu, rfl⟩ := List.mem_map.mp hr
          constructor
          · intro habs
            exact lookupA_extractOver_absent pitchTypes _ _ pu.1 habs
          · intro habs
            exact lookupA_extractOver_absent pitchTypes _ _ pu.1 habs

/-- A pitcher row with no pitch-usage columns at all. -/
def spdW9 : Table :=
  ⟨[⟨"Name", Dtype.object, [PyVal.str "Q"]⟩,
    ⟨"vSL", Dtype.float64, [PyVal.float 90]⟩]⟩

/-- C9 (witness for the general parts). -/
theorem c9_witness :
    pitcherSection spdW9 "Q" =
      Except.ok [pitcherHeader "Q", RenderItem.warning (noValidUsageMsg "Q")] :=
  c9_pitch_breakdown.2.2 spdW9 "Q" (by decide) (by decide)

/-- A pitcher row whose usage column holds a numeric (non-string) value. -/
def spdNum : Table :=
  ⟨[⟨"Name", Dtype.object, [PyVal.str "N"]⟩,
    ⟨"SL%", Dtype.float64, [PyVal.float 45]⟩]⟩

/-- C10: the usage filter accepts a value only when it is a string
containing `%` whose remainder, after removing `%` and `.`, is nonempty
and all digits; floats and NaN are always rejected.  Consequently a
pitcher whose usage columns hold only rejected (e.g. numeric) values gets
the no-valid-usage warning even though usage data is present in the row. -/
theorem c10_usage_filter_rule :
    (∀ x : Rat, usageAccepted (PyVal.float x) = false)
    ∧ usageAccepted PyVal.nan = false
    ∧ (∀ s : String, usageAccepted (PyVal.str s) =
        (s.data.contains '%'
          && !(s.data.filter (fun c => !(c == '%' || c == '.'))).isEmpty
          && (s.data.filter (fun c => !(c == '%' || c == '.'))).all Char.isDigit))
    ∧ (∀ (spd : Table) (name : String),
        tableEmpty (filterByName spd [name]) = false →
        (∀ pv ∈ extractPitch (filterByName spd [name]) (fun p => p ++ "%"),
          usageAccepted pv.2 = false) →
        pitcherSection spd name =
          Except.ok [pitcherHeader name, RenderItem.warning (noValidUsageMsg name)]) := by
  refine ⟨fun x => rfl, rfl, fun s => rfl, ?_⟩
  intro spd name hne hrej
  exact pitcherSection_warning_of_empty_usage spd name hne
    (parseUsage_all_rejected _ hrej)

/-- C10 (witness): numeric usage values are present but rejected, so the
warning is rendered. -/
theorem c10_witness :
    pitcherSection spdNum "N" =
      Except.ok [pitcherHeader "N", RenderItem.warning (noValidUsageMsg "N")] :=
  c10_usage_filter_rule.2.2.2 spdNum "N" (by decide) (by decide)

end FAT
